import Mathlib

/-
Shallow embedding of the collection pipeline of kingsoftcloud-exporter
(collector/product.go).  Pure Go functions become Lean functions; the
collector's mutable fields (MetricMap, Queries) are threaded explicitly as a
CollectorState; external collaborators (metric repository, series resolver,
missing constructors of the metric package) are oracles gathered in Env.
Logging in the Go code has no observable effect on the modelled state and is
dropped.
-/

/-- Embedding of metric.Meta: the metric metadata returned by
MetricRepo.ListMetrics; product.go reads only its MetricName field. -/
structure Meta where
  MetricName : String
deriving DecidableEq

/-- One resolved series of a metric (element of Metric.SeriesCache.Series). -/
structure Series where
  id : String
deriving DecidableEq

/-- Modelled from the spec: metric.MetricConf built by
NewMetricConfigWithProductYaml is not under src/; product.go only passes it
through, so it is kept abstract as an identifier. -/
structure MetricConfig where
  id : String
deriving DecidableEq

/-- Embedding of metric.Metric, restricted to the fields product.go reads:
LoadTimeAt (freshness check) and SeriesCache.Series (series count), plus the
identifying name and instance id. -/
structure Metric where
  MetricName : String
  InstanceId : String
  SeriesCacheSeries : List Series
  LoadTimeAt : Int
deriving DecidableEq

/-- Embedding of metric.Query: product.go treats a query as the pairing of one
Metric with the metric repository; the repository is an ambient oracle here,
so a Query carries its Metric. -/
structure Query where
  Metric : Metric
deriving DecidableEq

/-- A ready-to-publish sample (prometheus.Metric is opaque to product.go). -/
structure PromSample where
  id : String
deriving DecidableEq

/-- Embedding of config.KscProductConfig, restricted to the field loadMetrics
reads. -/
structure ProductConf where
  ExcludeMetrics : List String
deriving DecidableEq

/-- The collector's MetricMap: a Go map from key "metricName.instanceId" to
the Metric object, embedded as an association list with unique keys kept by
mapInsert. -/
abbrev MMap : Type := List (String × Metric)

/-- Go map read mp[key]. -/
def mapLookup : MMap → String → Option Metric
  | [], _ => none
  | (k, v) :: rest, key => if k = key then some v else mapLookup rest key

/-- Go map write mp[key] = v: replaces the binding if the key is present,
otherwise adds it. -/
def mapInsert : MMap → String → Metric → MMap
  | [], key, v => [(key, v)]
  | (k, v0) :: rest, key, v =>
    if k = key then (key, v) :: rest else (k, v0) :: mapInsert rest key v

/-- Embedding of fmt.Sprintf with the format string of product.go lines 172
and 197: the Registry key is the metric name and the instance id joined by a
dot. -/
def metricKey (name instanceId : String) : String :=
  name ++ "." ++ instanceId

/-- External collaborators and repository code outside src/, as oracles.
listMetrics returns the pair (error, metadata) of MetricRepo.ListMetrics for
an instance id; getSeriesByInstances stands for handler.GetSeriesByInstances
restricted to the singleton instance slice product.go passes.  The metric
package constructors (NewMetricConfigWithProductYaml, NewMetric, LoadSeries,
NewQuery) are not under src/ and are modelled from the spec as fallible
operations. -/
structure Env where
  listMetrics : String → Option String × List Meta
  newMetricConfig : ProductConf → Meta → Except String MetricConfig
  newMetric : Meta → MetricConfig → Except String Metric
  getSeriesByInstances : Metric → String → Option String × List Series
  loadSeries : Metric → List Series → Except String Metric
  newQuery : Metric → Except String Query

/-- Embedding of KscProductCollector.createMetricWithMeta (product.go
195-215): look the key up under the read lock; if present return the existing
Metric object unchanged, otherwise build a new one from the metadata and the
product configuration. -/
def createMetricWithMeta (env : Env) (mp : MMap) (meta : Meta)
    (pconf : ProductConf) (instanceId : String) : Except String Metric :=
  let key := metricKey meta.MetricName instanceId
  match mapLookup mp key with
  | some m => .ok m
  | none =>
    match env.newMetricConfig pconf meta with
    | .error e => .error e
    | .ok conf => env.newMetric meta conf

/-- Embedding of the body of the inner metadata loop of loadMetrics
(product.go 160-188), the exclusion check excluded: create or reuse the
Metric, insert it at its key, resolve its series (a resolution error is only
logged), then load them into the Metric (a load error is only logged; the
LoadSeries update itself is modelled from the spec as replacing the stored
Metric value on success). -/
def processMeta (env : Env) (pconf : ProductConf) (ins : String) (mp : MMap)
    (meta : Meta) : MMap :=
  match createMetricWithMeta env mp meta pconf ins with
  | .error _ => mp
  | .ok nm =>
    let key := metricKey meta.MetricName ins
    let mp1 := mapInsert mp key nm
    let series := (env.getSeriesByInstances nm ins).2
    match env.loadSeries nm series with
    | .error _ => mp1
    | .ok nm2 => mapInsert mp1 key nm2

/-- Embedding of the metadata loop step including the exclusion filter
(product.go 161-163): a metric whose lowercased name is in the non-empty
exclusion list is skipped. -/
def metaStep (env : Env) (excludeMetrics : List String) (pconf : ProductConf)
    (ins : String) (mp : MMap) (meta : Meta) : MMap :=
  if excludeMetrics.length ≠ 0 ∧ meta.MetricName.toLower ∈ excludeMetrics then
    mp
  else
    processMeta env pconf ins mp meta

/-- Embedding of the per-instance body of loadMetrics (product.go 153-189):
list the metadata (an error is only logged), and when the metadata list is
non-empty process every entry through the exclusion filter. -/
def processInstance (env : Env) (excludeMetrics : List String)
    (pconf : ProductConf) (mp : MMap) (ins : String) : MMap :=
  let allMeta := (env.listMetrics ins).2
  if allMeta.length > 0 then
    allMeta.foldl (metaStep env excludeMetrics pconf ins) mp
  else
    mp

/-- The successful result of loadMetrics: fold every instance over the
registry, with the exclusion list lowercased once up front (product.go
147-152). -/
def loadMetricsOk (env : Env) (pconf : ProductConf) (mp : MMap)
    (instances : List String) : MMap :=
  instances.foldl
    (processInstance env (pconf.ExcludeMetrics.map String.toLower) pconf) mp

/-- Embedding of KscProductCollector.loadMetrics (product.go 140-193):
obtaining the product configuration is the only failing step; every
per-instance and per-metric error inside the loops is logged and skipped. -/
def loadMetrics (env : Env) (getProductConf : Except String ProductConf)
    (mp : MMap) (instances : List String) : Except String MMap :=
  match getProductConf with
  | .error e => .error e
  | .ok pconf => .ok (loadMetricsOk env pconf mp instances)

/-- The canonical query for a metric: the pairing a successful
metric.NewQuery returns. -/
def mkQuery (m : Metric) : Query :=
  { Metric := m }

/-- Embedding of the query-building loop of LoadMetricsByProductConf
(product.go 123-134): iterate the registry, and for every metric whose load
time is within 60 seconds of currentTime build a query and append it to the
accumulator; a NewQuery error is returned, aborting the loop. -/
def buildQueries (newQuery : Metric → Except String Query) (currentTime : Int) :
    MMap → List Query → Except String (List Query)
  | [], qs => .ok qs
  | (_, m) :: rest, qs =>
    if currentTime - m.LoadTimeAt < 60 then
      match newQuery m with
      | .error e => .error e
      | .ok q => buildQueries newQuery currentTime rest (qs ++ [q])
    else
      buildQueries newQuery currentTime rest qs

/-- Embedding of the instance-truncation step of LoadMetricsByProductConf
(product.go 101-115): for a namespace that supports multi-dimension
monitoring, when more instances than the configured maximum were listed only
the first maxN are kept (a warning is logged). -/
def effectiveInstances (supportMultiDim : Bool) (maxN : Nat)
    (instances : List String) : List String :=
  if supportMultiDim = true ∧ maxN < instances.length then
    instances.take maxN
  else
    instances

/-- The collector state product.go mutates: the Metric Registry and the Query
Set. -/
structure CollectorState where
  MetricMap : MMap
  Queries : List Query
deriving DecidableEq

/-- Embedding of KscProductCollector.LoadMetricsByProductConf (product.go
85-138).  The IAM reload error is swallowed (TODO in the source) and the
empty-map initialisation is invisible in the pure model.  getInstances stands
for handler.GetInstances, getProductConf for Conf.GetProductConfig;
supportMultiDim for config.IsSupportMultiDimensionNamespace(Namespace) and
maxN for config.DefaultSupportInstances.  Note that the query loop appends to
the queries already in the state. -/
def LoadMetricsByProductConf (env : Env) (supportMultiDim : Bool) (maxN : Nat)
    (getInstances : Except String (List String))
    (getProductConf : Except String ProductConf)
    (currentTime : Int) (st : CollectorState) : Except String CollectorState :=
  match getInstances with
  | .error e => .error e
  | .ok instances0 =>
    let instances := effectiveInstances supportMultiDim maxN instances0
    match loadMetrics env getProductConf st.MetricMap instances with
    | .error e => .error e
    | .ok mp =>
      match buildQueries env.newQuery currentTime mp st.Queries with
      | .error e => .error e
      | .ok qs => .ok { MetricMap := mp, Queries := qs }

/-- Modelled from the spec: metric.QuerySet.SplitByBatch is not under src/.
The spec contract is an ordered sequence of batches, each an ordered sequence
of Query of length at most the batch size, only the final batch possibly
shorter, concatenating back to the original set. -/
def SplitByBatch (n : Nat) : List Query → List (List Query)
  | [] => []
  | q :: qs => (q :: qs.take (n - 1)) :: SplitByBatch n (qs.drop (n - 1))
termination_by qs => qs.length
decreasing_by
  simp only [List.length_drop, List.length_cons]
  omega

/-- Embedding of KscProductCollector.Collect (product.go 43-74): split the
query set into batches, fetch every batch (the goroutine fan-out is
sequentialised in batch order, which fixes one linearisation of the emission
interleaving), emit the samples of the successful batches onto the sink, drop
the samples of failed batches (the error is only logged), and return the
never-assigned named error, i.e. none.  fetch stands for
metric.GetPromMetricsByQueries. -/
def Collect (fetch : List Query → Except String (List PromSample))
    (batchSize : Nat) (queries : List Query) : List PromSample × Option String :=
  let queriesGroup := SplitByBatch batchSize queries
  (queriesGroup.foldl
    (fun acc q =>
      match fetch q with
      | .error _ => acc
      | .ok pms => acc ++ pms)
    [], none)

/-- Embedding of KscProductCollectorReloader.Run (product.go 241-261), with
real time abstracted away: after the initial full-interval sleep the loop
body runs one reload, then a select observes either the cancellation signal
or the next tick.  cancelled k tells whether the cancellation signal has been
delivered when the k-th select runs (the model resolves the select race in
favour of cancellation, the earliest possible observation); fuel bounds the
number of iterations modelled.  The result is the number of reloads
executed before the loop returns. -/
def runReloads (cancelled : Nat → Bool) : Nat → Nat → Nat
  | 0, _ => 0
  | fuel + 1, k => 1 + (if cancelled k then 0 else runReloads cancelled fuel (k + 1))

/-- A metric loaded at the current cycle time 100 (fresh). -/
def mA : Metric :=
  { MetricName := "cpu", InstanceId := "i-1", SeriesCacheSeries := [{ id := "s1" }],
    LoadTimeAt := 100 }

/-- A metric loaded 100 time-units before cycle time 100 (stale). -/
def mStale : Metric :=
  { MetricName := "mem", InstanceId := "i-1", SeriesCacheSeries := [], LoadTimeAt := 0 }

/-- A metric loaded exactly 60 time-units before cycle time 100 (the window
boundary). -/
def mEdge : Metric :=
  { MetricName := "net", InstanceId := "i-1", SeriesCacheSeries := [], LoadTimeAt := 40 }

/-- A concrete oracle environment in which every collaborator succeeds,
except the metadata listing for the instance id "bad", which fails with an
error and no metadata. -/
def envA : Env :=
  { listMetrics := fun ins =>
      if ins = "bad" then (some "listing failed", []) else (none, [{ MetricName := "cpu" }])
    newMetricConfig := fun _ meta => .ok { id := meta.MetricName }
    newMetric := fun meta _ =>
      .ok { MetricName := meta.MetricName, InstanceId := "i", SeriesCacheSeries := [],
            LoadTimeAt := 0 }
    getSeriesByInstances := fun _ ins => (none, [{ id := ins }])
    loadSeries := fun m series =>
      .ok { m with SeriesCacheSeries := series, LoadTimeAt := 100 }
    newQuery := fun m => .ok (mkQuery m) }

/-- The environment envA with a failing query constructor. -/
def env6 : Env :=
  { envA with newQuery := fun _ => .error "query construction failed" }

/-- The environment envA with a metadata listing that returns an error
together with a non-empty metadata sequence. -/
def envErrMeta : Env :=
  { envA with listMetrics := fun _ => (some "listing failed", [{ MetricName := "cpu" }]) }

/-- A product configuration with an empty exclusion list. -/
def pconfA : ProductConf := { ExcludeMetrics := [] }

/-- A collector state as left by an earlier cycle: the registry holds the
fresh metric mA, and the Query Set still holds a query of that earlier
cycle. -/
def stA : CollectorState :=
  { MetricMap := [("cpu.i-1", mA)], Queries := [mkQuery mStale] }

/-- A collector state whose registry holds only the boundary metric mEdge. -/
def stEdge : CollectorState :=
  { MetricMap := [("net.i-1", mEdge)], Queries := [] }

/-- A demonstration query for the batching contract. -/
def qdemo (s : String) : Query :=
  mkQuery { MetricName := s, InstanceId := "i", SeriesCacheSeries := [], LoadTimeAt := 0 }

/-- A five-element query set for the batching contract. -/
def qs5 : List Query :=
  [qdemo "a", qdemo "b", qdemo "c", qdemo "d", qdemo "e"]

theorem splitByBatch_nil_iff (n : Nat) (qs : List Query) :
    SplitByBatch n qs = [] ↔ qs = [] := by
  cases qs with
  | nil => simp [SplitByBatch]
  | cons q qs => simp [SplitByBatch]

theorem splitByBatch_flatten (n : Nat) (qs : List Query) :
    (SplitByBatch n qs).flatten = qs := by
  induction qs using SplitByBatch.induct n with
  | case1 => simp [SplitByBatch]
  | case2 q qs ih => simp [SplitByBatch, ih]

theorem splitByBatch_len_le (n : Nat) (hn : 0 < n) (qs : List Query) :
    ∀ b ∈ SplitByBatch n qs, b.length ≤ n := by
  induction qs using SplitByBatch.induct n with
  | case1 => simp [SplitByBatch]
  | case2 q qs ih =>
    intro b hb
    simp only [SplitByBatch, List.mem_cons] at hb
    rcases hb with rfl | hb
    · have := List.length_take_le (n - 1) qs
      simp only [List.length_cons]
      omega
    · exact ih b hb

theorem splitByBatch_count (n : Nat) (hn : 0 < n) (qs : List Query) :
    (SplitByBatch n qs).length = (qs.length + n - 1) / n := by
  induction qs using SplitByBatch.induct n with
  | case1 =>
    simp only [SplitByBatch, List.length_nil, Nat.zero_add]
    rw [Nat.div_eq_of_lt (by omega)]
  | case2 q qs ih =>
    simp only [SplitByBatch, List.length_cons, ih, List.length_drop]
    rcases le_or_lt (n - 1) qs.length with h | h
    · have h1 : qs.length - (n - 1) + n - 1 = qs.length := by omega
      have h2 : qs.length + 1 + n - 1 = qs.length + n := by omega
      rw [h1, h2, Nat.add_div_right _ hn]
    · have h1 : qs.length - (n - 1) = 0 := by omega
      rw [h1]
      have h2 : (0 + n - 1) / n = 0 := by
        apply Nat.div_eq_of_lt
        omega
      rw [h2]
      have h3 : qs.length + 1 + n - 1 = qs.length + n := by omega
      rw [h3, Nat.add_div_right _ hn]
      have : qs.length / n = 0 := Nat.div_eq_of_lt (by omega)
      omega

theorem splitByBatch_full (n : Nat) (hn : 0 < n) (qs : List Query) :
    ∀ b ∈ (SplitByBatch n qs).dropLast, b.length = n := by
  induction qs using SplitByBatch.induct n with
  | case1 => simp [SplitByBatch]
  | case2 q qs ih =>
    intro b hb
    by_cases hrest : SplitByBatch n (qs.drop (n - 1)) = []
    · simp [SplitByBatch, hrest] at hb
    · rw [SplitByBatch, List.dropLast_cons_of_ne_nil hrest, List.mem_cons] at hb
      rcases hb with rfl | hb
      · have hq : qs.drop (n - 1) ≠ [] := by
          intro hcon
          exact hrest (by simp [hcon, SplitByBatch])
        have hlen : n - 1 ≤ qs.length := by
          by_contra hcon
          exact hq (List.drop_eq_nil_of_le (by omega))
        simp only [List.length_cons, List.length_take]
        omega
      · exact ih b hb

/-- Claim C5: for every query set and every positive batch size n,
SplitByBatch produces exactly ceil(L/n) batches, each of length at most n,
every batch but possibly the last of length exactly n, and the batches
concatenate in order back to the original query set (splitting is a pure
function of the set, so the source is not mutated). -/
theorem SplitByBatch_contract (n : Nat) (hn : 0 < n) (qs : List Query) :
    (SplitByBatch n qs).length = qs.length ⌈/⌉ n ∧
    (∀ b ∈ SplitByBatch n qs, b.length ≤ n) ∧
    (∀ b ∈ (SplitByBatch n qs).dropLast, b.length = n) ∧
    (SplitByBatch n qs).flatten = qs := by
  refine ⟨?_, splitByBatch_len_le n hn qs, splitByBatch_full n hn qs,
    splitByBatch_flatten n qs⟩
  rw [Nat.ceilDiv_eq_add_pred_div]
  exact splitByBatch_count n hn qs

/-- Witness for C5 at batch size 2 on a five-query set. -/
theorem SplitByBatch_contract_witness :
    0 < 2 ∧ (SplitByBatch 2 qs5).length = 3 ∧ (SplitByBatch 2 qs5).flatten = qs5 := by
  have h := SplitByBatch_contract 2 (by decide) qs5
  exact ⟨by decide, h.1.trans (by decide), h.2.2.2⟩

theorem collect_foldl_eq (fetch : List Query → Except String (List PromSample))
    (groups : List (List Query)) :
    ∀ acc : List PromSample,
      groups.foldl
        (fun acc q =>
          match fetch q with
          | .error _ => acc
          | .ok pms => acc ++ pms) acc =
      acc ++ (groups.map
        (fun b =>
          match fetch b with
          | .error _ => []
          | .ok pms => pms)).flatten := by
  induction groups with
  | nil => intro acc; simp
  | cons g groups ih =>
    intro acc
    simp only [List.foldl_cons, List.map_cons, List.flatten_cons]
    cases hg : fetch g with
    | error e => simp [hg, ih acc]
    | ok pms => simp [hg, ih (acc ++ pms)]

/-- Claim C4: Collect emits exactly the samples of the batches whose fetch
succeeded, in batch order (the model's linearisation of the concurrent
emission): a failed batch contributes the empty list and leaves every other
batch's contribution unchanged, every dispatched batch is consumed before
Collect returns, and the returned error is always none. -/
theorem Collect_partial_failure_isolated
    (fetch : List Query → Except String (List PromSample)) (n : Nat)
    (qs : List Query) :
    Collect fetch n qs =
      (((SplitByBatch n qs).map
        (fun b =>
          match fetch b with
          | .error _ => []
          | .ok pms => pms)).flatten, none) := by
  simp only [Collect]
  rw [collect_foldl_eq fetch (SplitByBatch n qs) []]
  simp

/-- Claim C1 (evaluating the code at the failing input): a reload cycle at
time 100 over a registry holding one fresh metric, starting from a Query Set
left over from an earlier cycle, ends with a Query Set that still contains
the earlier query in front of the fresh one — the query loop appends to
c.Queries instead of rebuilding it into a fresh sequence. -/
theorem LoadMetricsByProductConf_queries_accumulate :
    LoadMetricsByProductConf envA false 10 (.ok []) (.ok pconfA) 100 stA =
      .ok { MetricMap := [("cpu.i-1", mA)],
            Queries := [mkQuery mStale, mkQuery mA] } ∧
    [mkQuery mStale, mkQuery mA] ≠ [mkQuery mA] := by
  constructor
  · rfl
  · decide

theorem buildQueries_char (nq : Metric → Except String Query)
    (hnq : ∀ m, nq m = .ok (mkQuery m)) (t : Int) (mp : MMap) :
    ∀ acc : List Query,
      buildQueries nq t mp acc =
        .ok (acc ++ (mp.filter (fun p => decide (t - p.2.LoadTimeAt < 60))).map
          (fun p => mkQuery p.2)) := by
  induction mp with
  | nil => intro acc; simp [buildQueries]
  | cons p rest ih =>
    intro acc
    obtain ⟨k, m⟩ := p
    by_cases hf : t - m.LoadTimeAt < 60
    · simp only [buildQueries, if_pos hf, hnq m, ih (acc ++ [mkQuery m]),
        List.filter_cons]
      simp [hf]
    · simp only [buildQueries, if_neg hf, ih acc, List.filter_cons]
      simp [hf]

/-- Claim C2 counterexample: at cycle time 100 the metric mEdge has been
loaded exactly 60 time-units earlier, so by the claim's window (only metrics
61 or more units old are excluded) it should contribute a query; the cycle
produces an empty Query Set for it. -/
theorem query_window_boundary_cex :
    (100 : Int) - mEdge.LoadTimeAt = 60 ∧
    LoadMetricsByProductConf envA false 10 (.ok []) (.ok pconfA) 100 stEdge =
      .ok { MetricMap := [("net.i-1", mEdge)], Queries := [] } := by
  constructor
  · decide
  · rfl

/-- Claim C2 (amended): with a non-failing query constructor the query loop
extends the accumulator with exactly one query per registry metric loaded
strictly less than 60 time-units before the cycle time, in registry order, so
a metric contributes a query iff its age is at most 59 units and a metric 60
or more units old contributes none; and a completed cycle's registry is
exactly the loadMetrics result whatever the cycle time — staleness never
removes a metric from the registry. -/
theorem buildQueries_strict_window :
    (∀ (nq : Metric → Except String Query), (∀ m, nq m = .ok (mkQuery m)) →
      ∀ (t : Int) (mp : MMap) (acc : List Query),
        buildQueries nq t mp acc =
          .ok (acc ++ (mp.filter (fun p => decide (t - p.2.LoadTimeAt < 60))).map
            (fun p => mkQuery p.2))) ∧
    (∀ (env : Env) (b : Bool) (k : Nat) (instances : List String)
        (gpc : Except String ProductConf) (t : Int) (st st' : CollectorState),
      LoadMetricsByProductConf env b k (.ok instances) gpc t st = .ok st' →
      loadMetrics env gpc st.MetricMap (effectiveInstances b k instances) =
        .ok st'.MetricMap) := by
  constructor
  · intro nq hnq t mp acc
    exact buildQueries_char nq hnq t mp acc
  · intro env b k instances gpc t st st' h
    simp only [LoadMetricsByProductConf] at h
    cases hl : loadMetrics env gpc st.MetricMap (effectiveInstances b k instances) with
    | error e =>
      rw [hl] at h
      simp at h
    | ok mp =>
      rw [hl] at h
      dsimp only at h
      cases hb : buildQueries env.newQuery t mp st.Queries with
      | error e =>
        rw [hb] at h
        simp at h
      | ok qs =>
        rw [hb] at h
        simp only [Except.ok.injEq] at h
        subst h
        rfl

/-- Witness for C2: at cycle time 100 the registry with one fresh, one stale
and one boundary metric yields exactly the query of the fresh metric. -/
theorem buildQueries_strict_window_witness :
    buildQueries (fun m => .ok (mkQuery m)) 100
      [("cpu.i-1", mA), ("mem.i-1", mStale), ("net.i-1", mEdge)] [] =
      .ok [mkQuery mA] := by
  have h := buildQueries_strict_window.1 (fun m => .ok (mkQuery m)) (fun m => rfl)
    100 [("cpu.i-1", mA), ("mem.i-1", mStale), ("net.i-1", mEdge)] []
  exact h.trans (by rfl)

theorem mapInsert_lookup_self (mp : MMap) (key : String) (m : Metric)
    (h : mapLookup mp key = some m) : mapInsert mp key m = mp := by
  induction mp with
  | nil => simp [mapLookup] at h
  | cons p rest ih =>
    obtain ⟨k, v⟩ := p
    by_cases hk : k = key
    · subst hk
      simp [mapLookup] at h
      subst h
      simp [mapInsert]
    · simp only [mapLookup, if_neg hk] at h
      simp [mapInsert, hk, ih h]

/-- Claim C3: when the (metric name, instance id) key is already in the
registry, createMetricWithMeta returns that existing Metric object — series
cache and load time untouched — and the cycle's re-insertion of it leaves the
registry unchanged; a new Metric is built from the metadata and the product
configuration only when the key is absent. -/
theorem createMetricWithMeta_reuse (env : Env) (mp : MMap) (meta : Meta)
    (pconf : ProductConf) (ins : String) :
    (∀ m, mapLookup mp (metricKey meta.MetricName ins) = some m →
      createMetricWithMeta env mp meta pconf ins = .ok m ∧
      mapInsert mp (metricKey meta.MetricName ins) m = mp) ∧
    (mapLookup mp (metricKey meta.MetricName ins) = none →
      ∀ conf, env.newMetricConfig pconf meta = .ok conf →
        createMetricWithMeta env mp meta pconf ins = env.newMetric meta conf) := by
  constructor
  · intro m h
    refine ⟨?_, mapInsert_lookup_self mp _ m h⟩
    simp only [createMetricWithMeta]
    rw [h]
  · intro h conf hconf
    simp only [createMetricWithMeta]
    rw [h, hconf]

/-- Witness for C3: the key cpu.i-1 is present, so the stored metric mA is
returned and re-inserting it is the identity on the registry. -/
theorem createMetricWithMeta_reuse_witness :
    createMetricWithMeta envA [("cpu.i-1", mA)] { MetricName := "cpu" } pconfA "i-1" =
      .ok mA ∧
    mapInsert [("cpu.i-1", mA)] (metricKey "cpu" "i-1") mA = [("cpu.i-1", mA)] := by
  exact (createMetricWithMeta_reuse envA [("cpu.i-1", mA)] { MetricName := "cpu" }
    pconfA "i-1").1 mA (by decide)

/-- Claim C6 counterexample: every collaborator succeeds except the query
constructor; the cycle over a registry with one fresh metric returns that
per-metric error to the caller instead of degrading it to logging. -/
theorem newQuery_error_aborts_cycle_cex :
    LoadMetricsByProductConf env6 false 10 (.ok []) (.ok pconfA) 100
      { MetricMap := [("cpu.i-1", mA)], Queries := [] } =
      .error "query construction failed" ∧
    (LoadMetricsByProductConf env6 false 10 (.ok []) (.ok pconfA) 100
      { MetricMap := [("cpu.i-1", mA)], Queries := [] }).isOk = false := by
  constructor
  · rfl
  · rfl

theorem buildQueries_isOk (nq : Metric → Except String Query)
    (h : ∀ m, (nq m).isOk = true) (t : Int) (mp : MMap) :
    ∀ acc, (buildQueries nq t mp acc).isOk = true := by
  induction mp with
  | nil => intro acc; simp [buildQueries, Except.isOk, Except.toBool]
  | cons p rest ih =>
    intro acc
    obtain ⟨k, m⟩ := p
    by_cases hf : t - m.LoadTimeAt < 60
    · simp only [buildQueries, if_pos hf]
      cases hq : nq m with
      | error e =>
        have hm := h m
        rw [hq] at hm
        simp [Except.isOk, Except.toBool] at hm
      | ok q => exact ih (acc ++ [q])
    · simp only [buildQueries, if_neg hf]
      exact ih acc

/-- Claim C6 (amended): per-metric construction, series-resolution and
series-load failures and per-instance listing failures are degraded to
logging — for every oracle environment loadMetrics succeeds once the product
configuration is available, and the whole cycle succeeds when additionally
the query constructor does not fail — while the structural errors (instance
listing, product configuration) are returned to the caller; a per-metric
query-construction failure, however, also aborts the cycle (see the
counterexample). -/
theorem per_item_errors_degraded (env : Env) (b : Bool) (k : Nat)
    (instances : List String) (pconf : ProductConf) (t : Int)
    (st : CollectorState) :
    (loadMetrics env (.ok pconf) st.MetricMap instances).isOk = true ∧
    ((∀ m, (env.newQuery m).isOk = true) →
      (LoadMetricsByProductConf env b k (.ok instances) (.ok pconf) t st).isOk
        = true) ∧
    (∀ e gpc, LoadMetricsByProductConf env b k (.error e) gpc t st = .error e) ∧
    (∀ e, LoadMetricsByProductConf env b k (.ok instances) (.error e) t st
        = .error e) := by
  refine ⟨rfl, ?_, fun e gpc => rfl, fun e => rfl⟩
  intro hq
  simp only [LoadMetricsByProductConf, loadMetrics]
  cases hb : buildQueries env.newQuery t
      (loadMetricsOk env pconf st.MetricMap (effectiveInstances b k instances))
      st.Queries with
  | error e =>
    have h1 := buildQueries_isOk env.newQuery hq t
      (loadMetricsOk env pconf st.MetricMap (effectiveInstances b k instances))
      st.Queries
    rw [hb] at h1
    simp [Except.isOk, Except.toBool] at h1
  | ok qs =>
    rfl

/-- Witness for C6: with the all-succeeding environment the whole cycle over
one instance completes without error. -/
theorem per_item_errors_degraded_witness :
    (LoadMetricsByProductConf envA false 10 (.ok ["i-1"]) (.ok pconfA) 100
      stA).isOk = true := by
  exact (per_item_errors_degraded envA false 10 ["i-1"] pconfA 100 stA).2.1
    (fun m => rfl)

/-- Claim C7 counterexample: the cancellation signal is delivered before the
first tick (observed at every select), yet the Run loop still executes one
reload, not zero, because the loop body reloads before the select checks
cancellation. -/
theorem stop_before_first_tick_cex :
    runReloads (fun _ => true) 5 0 = 1 ∧ runReloads (fun _ => true) 5 0 ≠ 0 := by
  decide

/-- Claim C7 (amended): the loop sleeps one full interval and then always
executes a first reload; when the cancellation signal is already observed at
the first select — stop signalled before the first tick — the loop
terminates having executed exactly one reload, the cancellation being checked
after each reload completes and after each tick. -/
theorem stop_before_first_tick_one_reload (cancelled : Nat → Bool) (fuel : Nat)
    (h0 : cancelled 0 = true) (hf : 0 < fuel) :
    runReloads cancelled fuel 0 = 1 := by
  cases fuel with
  | zero => omega
  | succ f => simp [runReloads, h0]

/-- Witness for C7 at a concrete always-cancelled signal and fuel 3. -/
theorem stop_before_first_tick_one_reload_witness :
    (fun _ => true : Nat → Bool) 0 = true ∧ 0 < 3 ∧
    runReloads (fun _ => true) 3 0 = 1 :=
  ⟨rfl, by decide, stop_before_first_tick_one_reload (fun _ => true) 3 rfl (by decide)⟩

/-- Claim C8: when the metadata listing for one instance fails — an error and
no metadata — that instance contributes nothing: the cycle result equals the
result of the cycle on the remaining instances alone, and the cycle still
reports success. -/
theorem instance_listing_failure_skipped (env : Env) (pconf : ProductConf)
    (mp : MMap) (pre post : List String) (ins : String) (e : String)
    (hfail : env.listMetrics ins = (some e, [])) :
    loadMetrics env (.ok pconf) mp (pre ++ ins :: post) =
      loadMetrics env (.ok pconf) mp (pre ++ post) ∧
    (loadMetrics env (.ok pconf) mp (pre ++ ins :: post)).isOk = true := by
  have hskip : ∀ ex acc, processInstance env ex pconf acc ins = acc := by
    intro ex acc
    simp [processInstance, hfail]
  refine ⟨?_, rfl⟩
  simp only [loadMetrics, loadMetricsOk, List.foldl_append, List.foldl_cons, hskip]

/-- Witness for C8: with one failing instance among three, the cycle equals
the cycle on the two healthy instances. -/
theorem instance_listing_failure_skipped_witness :
    envA.listMetrics "bad" = (some "listing failed", []) ∧
    loadMetrics envA (.ok pconfA) [] ["i-1", "bad", "i-2"] =
      loadMetrics envA (.ok pconfA) [] ["i-1", "i-2"] := by
  refine ⟨by decide, ?_⟩
  exact (instance_listing_failure_skipped envA pconfA [] ["i-1"] ["i-2"] "bad"
    "listing failed" (by decide)).1

/-- Claim C9: for a namespace supporting multi-dimension monitoring a cycle
whose instance snapshot exceeds the configured maximum behaves exactly as the
cycle given only the first maxN snapshot instances, and a snapshot within the
bound is processed unchanged — the cycle then behaves as if the namespace had
no truncation rule at all. -/
theorem multidim_truncation (env : Env) (maxN : Nat) (instances : List String)
    (gpc : Except String ProductConf) (t : Int) (st : CollectorState) :
    (maxN < instances.length →
      LoadMetricsByProductConf env true maxN (.ok instances) gpc t st =
        LoadMetricsByProductConf env true maxN (.ok (instances.take maxN)) gpc t st) ∧
    (instances.length ≤ maxN →
      LoadMetricsByProductConf env true maxN (.ok instances) gpc t st =
        LoadMetricsByProductConf env false maxN (.ok instances) gpc t st) := by
  constructor
  · intro h
    have h1 : effectiveInstances true maxN instances = instances.take maxN := by
      unfold effectiveInstances
      rw [if_pos ⟨rfl, h⟩]
    have h2 : effectiveInstances true maxN (instances.take maxN)
        = instances.take maxN := by
      unfold effectiveInstances
      rw [if_neg (by simp [List.length_take])]
    simp only [LoadMetricsByProductConf, h1, h2]
  · intro h
    have h1 : effectiveInstances true maxN instances = instances := by
      unfold effectiveInstances
      rw [if_neg (by rintro ⟨-, hlt⟩; omega)]
    have h2 : effectiveInstances false maxN instances = instances := by
      unfold effectiveInstances
      rw [if_neg (by simp)]
    simp only [LoadMetricsByProductConf, h1, h2]

/-- Witness for C9: with maximum 1 and two instances, the cycle equals the
cycle on the first instance alone. -/
theorem multidim_truncation_witness :
    1 < 2 ∧
    LoadMetricsByProductConf envA true 1 (.ok ["i-1", "i-2"]) (.ok pconfA) 100
      { MetricMap := [], Queries := [] } =
      LoadMetricsByProductConf envA true 1 (.ok ["i-1"]) (.ok pconfA) 100
        { MetricMap := [], Queries := [] } :=
  ⟨by decide,
    (multidim_truncation envA 1 ["i-1", "i-2"] (.ok pconfA) 100
      { MetricMap := [], Queries := [] }).1 (by decide)⟩

/-- Claim C10: the per-instance guard is on the returned metadata sequence,
not on the error: when the listing returns an error together with non-empty
metadata the instance is still processed, every metadata entry going through
the exclusion filter step; the instance leaves the registry unchanged exactly
when the returned metadata sequence is empty. -/
theorem listing_error_nonempty_meta_processed (env : Env) (ex : List String)
    (pconf : ProductConf) (mp : MMap) (ins : String) (e : String)
    (metas : List Meta) (h : env.listMetrics ins = (some e, metas)) :
    (metas ≠ [] →
      processInstance env ex pconf mp ins =
        metas.foldl (metaStep env ex pconf ins) mp) ∧
    (metas = [] → processInstance env ex pconf mp ins = mp) := by
  constructor
  · intro hne
    have hpos : 0 < metas.length := List.length_pos.mpr hne
    simp [processInstance, h, hpos]
  · intro he
    subst he
    simp [processInstance, h]

/-- Witness for C10: a listing that fails but still returns one metadata
entry has that entry processed. -/
theorem listing_error_nonempty_meta_processed_witness :
    processInstance envErrMeta [] pconfA [] "i-1" =
      [{ MetricName := "cpu" }].foldl (metaStep envErrMeta [] pconfA "i-1") [] := by
  exact (listing_error_nonempty_meta_processed envErrMeta [] pconfA [] "i-1"
    "listing failed" [{ MetricName := "cpu" }] (by rfl)).1 (by decide)
